import Mathlib

/-!
# Verification of the flashcard study core

Shallow embedding of the adaptive-study core of the vocabulary-flashcard
service: `src/model.py` (the `User`/`UserCard` data model and
`User.calc_level`), `src/schema.py` (the column defaults the SQL `INSERT`s
rely on), `src/study_manager.py` (`user_card_study`, `user_card_choices`,
`user_can_study`, `user_ensure`) and `src/cards_bot.py`
(`handle_delete_word` of the conversation state machine).

Modelling conventions:
* SQL rows become Lean structures; a table becomes a `List` of rows.
* Python `int` becomes `ℤ`; a POSIX timestamp (`datetime.timestamp()` /
  `time.time()`) becomes `ℚ`; Python float arithmetic on weights becomes
  exact `ℚ` arithmetic, and `math.log2` over floats becomes `Real.logb 2`.
* `numpy.random.choice(a, size=k, replace=False, p=probs)` is modelled by
  `np_choice`: its input validation follows numpy's documented checks in
  numpy's order (length mismatch, negative entries, sum ≠ 1, sample larger
  than population, fewer non-zero weights than the sample size), and the
  random draw itself is parametrised by an oracle `pick : ℕ → ℕ` supplying
  the randomness, so that every theorem about it holds for every random
  sequence.  A raised `ValueError` becomes `Except.error`.
-/

namespace Netology

/-- A row of the `users` table (src/model.py:21-26; columns per
src/schema.py:34-39). -/
structure User where
  id : ℤ
  score : ℤ
  level : ℤ
deriving DecidableEq

/-- A row of the `user_card` table joined with `card.word`
(src/model.py:46-56).  `last_study` holds the timestamp of the
`last_study` column in seconds. -/
structure UserCard where
  user_id : ℤ
  card_id : ℤ
  trans : String
  last_study : ℚ
  score : ℤ
  word : String
deriving DecidableEq

instance : Inhabited UserCard := ⟨⟨0, 0, "", 0, 0, ""⟩⟩

/-- Python's `int()` applied to a real number: truncation toward zero.
`src/model.py:43` wraps the level formula in `int(...)`; for arguments
≥ 0 this agrees with the floor. -/
noncomputable def pyInt (r : ℝ) : ℤ := if 0 ≤ r then ⌊r⌋ else ⌈r⌉

/-- `User.calc_level` (src/model.py:28-43):
`int(2 * log2(self.score / 10 + 1) + 1)`.
(Python's `math.log2` raises on arguments ≤ 0, i.e. for `score ≤ -10`;
that branch is not modelled — every claim evaluates the formula at
`score ≥ 0`, where the argument is ≥ 1.) -/
noncomputable def calc_level (score : ℤ) : ℤ :=
  pyInt (2 * Real.logb 2 ((score : ℝ) / 10 + 1) + 1)

/-- The card-score update inside `StudyManager.user_card_study`
(src/study_manager.py:343): `max(0, user_card.score + (1 if success else -1))`. -/
def card_score_update (prev : ℤ) (success : Bool) : ℤ :=
  max 0 (prev + if success then 1 else -1)

/-- Everything `StudyManager.user_card_study` persists, plus its return
value. -/
structure StudyResult where
  cardScore : ℤ
  lastStudy : ℚ
  userScore : ℤ
  userLevel : ℤ
  levelUp : Option ℤ

/-- `StudyManager.user_card_study` (src/study_manager.py:323-364) as a pure
state transformer: `user_card` is the row loaded for `(uid, cid)`, `user`
the row loaded by `user_load`, `now` the timestamp written to `last_study`.
Note that the source computes `level = user.calc_level()` on the loaded
`user` object, whose `score` attribute still holds the value from before
this answer; only the local variable `score` holds the incremented value. -/
noncomputable def user_card_study (user_card : UserCard) (user : User)
    (success : Bool) (now : ℚ) : StudyResult :=
  let score := card_score_update user_card.score success
  let score2 := user.score + if success then 1 else 0
  let level := calc_level user.score
  { cardScore := score
    lastStudy := now
    userScore := score2
    userLevel := level
    levelUp := if user.level < level then some level else none }

/-- The `users` row after one study answer: `UPDATE users SET score, level`
(src/study_manager.py:358-361). -/
noncomputable def user_after_study (user_card : UserCard) (user : User)
    (success : Bool) (now : ℚ) : User :=
  { id := user.id
    score := (user_card_study user_card user success now).userScore
    level := (user_card_study user_card user success now).userLevel }

/-- The row `INSERT INTO users (id) VALUES(?id?)` creates: the omitted
columns take the schema defaults `score INTEGER NOT NULL DEFAULT 0,
level INTEGER NOT NULL DEFAULT 0` (src/schema.py:34-39). -/
def user_default (uid : ℤ) : User := { id := uid, score := 0, level := 0 }

/-- `StudyManager.user_ensure` (src/study_manager.py:192-207) over the
`users` table. -/
def user_ensure (db : List User) (uid : ℤ) : List User :=
  if db.any (fun u => u.id == uid) then db else db ++ [user_default uid]

/-- `StudyManager.user_can_study` (src/study_manager.py:387-393):
`user_card_count(uid) > 4`, with the count taken over the user's
`user_card` rows. -/
def user_can_study (cards : List UserCard) : Bool := cards.length > 4

/-- Validation failures of `numpy.random.choice` (each one a `ValueError`
in numpy). -/
inductive ChoiceError where
  | probsLengthMismatch
  | probsNotNonneg
  | probsSumNotOne
  | sampleTooLarge
  | fewerNonzero
deriving DecidableEq

deriving instance DecidableEq for Except

/-- The index draw of `numpy.random.choice(..., replace=False, p=...)` once
validation has passed: `size` distinct indices are taken from `avail` (the
indices of positive probability), one per step, each removed once drawn.
`pick step` is the oracle's raw randomness for step `step`. -/
def sampleIdx (pick : ℕ → ℕ) : ℕ → List ℕ → ℕ → List ℕ
  | 0, _, _ => []
  | k + 1, avail, step =>
    let i := avail.getD (pick step % avail.length) 0
    i :: sampleIdx pick k (avail.erase i) (step + 1)

/-- `numpy.random.choice(a, size, replace=False, p)`.  The checks and their
order follow numpy (`mtrand.RandomState.choice`): probability-vector length,
negative entries, sum different from 1, sample larger than the population,
and fewer non-zero probabilities than `size`.  (numpy compares the float sum
to 1 up to a tolerance; the model's `ℚ` sum is exact.)  The draw itself is
delegated to `sampleIdx` over the oracle `pick`. -/
def np_choice (pick : ℕ → ℕ) (a : List UserCard) (size : ℕ) (p : List ℚ) :
    Except ChoiceError (List UserCard) :=
  if p.length ≠ a.length then .error .probsLengthMismatch
  else if p.any (fun q => decide (q < 0)) then .error .probsNotNonneg
  else if p.sum ≠ 1 then .error .probsSumNotOne
  else if a.length < size then .error .sampleTooLarge
  else if ((List.range a.length).filter (fun i => decide (0 < p.getD i 0))).length < size then
    .error .fewerNonzero
  else
    .ok ((sampleIdx pick size
          ((List.range a.length).filter (fun i => decide (0 < p.getD i 0))) 0).map
        (fun i => a.getD i default))

/-- `StudyManager.user_card_choices` (src/study_manager.py:366-385):
`now` is `time()`, `cards` the result of `user_card_list(uid)`.
`weights = [(now - uc.last_study.timestamp()) / 86400 / (uc.score + 1) ...]`,
`weight_sum = sum(weights) or 1` (Python's `or` yields `1` exactly when the
sum is zero), `probs = [w / weight_sum ...]`, then
`choice(user_cards, size=k, replace=False, p=probs)`.
(For `uc.score = -1` Python would raise `ZeroDivisionError`; in `ℚ` the
division yields 0.  Card scores are kept ≥ 0 by `user_card_study`, and no
claim exercises that case.) -/
def user_card_choices (pick : ℕ → ℕ) (now : ℚ) (cards : List UserCard)
    (k : ℕ) : Except ChoiceError (List UserCard) :=
  let weights := cards.map (fun uc => (now - uc.last_study) / 86400 / ((uc.score : ℚ) + 1))
  let weight_sum := if weights.sum = 0 then 1 else weights.sum
  let probs := weights.map (fun w => w / weight_sum)
  np_choice pick cards k probs

/-- The conversation states of `CardsBotStates` (src/cards_bot.py:26-32),
plus `idle` for "no state set" (`delete_state`). -/
inductive BotState where
  | idle
  | add_word
  | add_trans
  | delete_word
  | import_collection
  | study_choice
deriving DecidableEq

/-- What `CardsBot.handle_delete_word` replies with. -/
inductive DeleteReply where
  | deletedAll
  | deleted (word : String)
  | missing (word : String)
deriving DecidableEq

/-- SQL `LOWER`, mapped over the characters (ASCII-accurate; the stored
words are English). -/
def sqlLower (s : String) : String := ⟨s.data.map Char.toLower⟩

/-- `StudyManager.user_card_exists` (src/study_manager.py:237-252):
a count over `LOWER(c.word) = LOWER(?word?)`. -/
def user_card_exists (cards : List UserCard) (word : String) : Bool :=
  cards.any (fun uc => sqlLower uc.word == sqlLower word)

/-- `StudyManager.user_card_delete` (src/study_manager.py:293-307):
`DELETE ... WHERE ... LOWER(c.word) = LOWER(?word?)`. -/
def user_card_delete (cards : List UserCard) (word : String) : List UserCard :=
  cards.filter (fun uc => sqlLower uc.word != sqlLower word)

/-- `CardsBot.handle_delete_word` (src/cards_bot.py:193-251), entered in
state `delete_word`.  The branches for `ALL` and for an existing word call
`delete_state` (modelled as a transition to `idle`); the miss branch only
sends the `user_card_missing` message and never touches the state, so the
state stays `delete_word`.  The returned triple is (state after the call,
the user's cards after the call, the reply sent). -/
def handle_delete_word (cards : List UserCard) (word : String) :
    BotState × List UserCard × DeleteReply :=
  if word = "ALL" then
    (BotState.idle, [], DeleteReply.deletedAll)
  else if user_card_exists cards word then
    (BotState.idle, user_card_delete cards word, DeleteReply.deleted word)
  else
    (BotState.delete_word, cards, DeleteReply.missing word)

/-! ## Properties of the level formula -/

theorem pyInt_eq_floor {r : ℝ} (h : 0 ≤ r) : pyInt r = ⌊r⌋ := if_pos h

/-- For `score ≥ 0` the level formula's argument is ≥ 1, so Python's
truncating `int()` is the floor. -/
theorem calc_level_eq_floor {s : ℤ} (hs : 0 ≤ s) :
    calc_level s = ⌊2 * Real.logb 2 ((s : ℝ) / 10 + 1) + 1⌋ := by
  have hx : (1 : ℝ) ≤ (s : ℝ) / 10 + 1 := by
    have : (0 : ℝ) ≤ (s : ℝ) := by exact_mod_cast hs
    linarith
  have hlog : 0 ≤ Real.logb 2 ((s : ℝ) / 10 + 1) := Real.logb_nonneg one_lt_two hx
  exact pyInt_eq_floor (by linarith)

/-- Closed form of the level over naturals: the real-logarithm formula of
the source reduces to an integer computation with `Nat.log`. -/
theorem calc_level_nat (s : ℕ) :
    calc_level (s : ℤ) = (Nat.log 2 ((s + 10) ^ 2 / 100) : ℤ) + 1 := by
  have h100 : (100 : ℕ) ≤ (s + 10) ^ 2 := by
    have h10 : (10 : ℕ) ≤ s + 10 := by omega
    calc (100 : ℕ) = 10 ^ 2 := by norm_num
    _ ≤ (s + 10) ^ 2 := Nat.pow_le_pow_left h10 2
  set m := (s + 10) ^ 2 with hm
  set n := Nat.log 2 (m / 100) with hn
  have hm0 : m / 100 ≠ 0 := by
    have h1 : 1 ≤ m / 100 := (Nat.one_le_div_iff (by norm_num)).2 h100
    omega
  have hlow : 2 ^ n ≤ m / 100 := Nat.pow_log_le_self 2 hm0
  have hhigh : m / 100 < 2 ^ (n + 1) := Nat.lt_pow_succ_log_self (by norm_num) _
  have hlow2 : 2 ^ n * 100 ≤ m := (Nat.le_div_iff_mul_le (by norm_num)).1 hlow
  have hhigh2 : m < 2 ^ (n + 1) * 100 := by
    by_contra hcon
    push_neg at hcon
    exact absurd ((Nat.le_div_iff_mul_le (by norm_num)).2 hcon) (by omega)
  have hx2 : ((s : ℝ) / 10 + 1) ^ 2 = (m : ℝ) / 100 := by
    rw [hm]; push_cast; ring
  have hxpos : (0 : ℝ) < (s : ℝ) / 10 + 1 := by positivity
  have hlo : ((2 : ℝ)) ^ n ≤ ((s : ℝ) / 10 + 1) ^ 2 := by
    rw [hx2]
    have hc : ((2 ^ n * 100 : ℕ) : ℝ) ≤ ((m : ℕ) : ℝ) := Nat.cast_le.2 hlow2
    push_cast at hc
    linarith
  have hhi : ((s : ℝ) / 10 + 1) ^ 2 < (2 : ℝ) ^ (n + 1) := by
    rw [hx2]
    have hc : ((m : ℕ) : ℝ) < ((2 ^ (n + 1) * 100 : ℕ) : ℝ) := Nat.cast_lt.2 hhigh2
    push_cast at hc
    linarith
  have hsq : Real.logb 2 (((s : ℝ) / 10 + 1) ^ 2) =
      2 * Real.logb 2 ((s : ℝ) / 10 + 1) := by
    rw [Real.logb_pow]; push_cast; ring
  have hlog_lo : (n : ℝ) ≤ 2 * Real.logb 2 ((s : ℝ) / 10 + 1) := by
    rw [← hsq]
    have h1 : (n : ℝ) ≤ Real.logb 2 (((s : ℝ) / 10 + 1) ^ 2) := by
      rw [Real.le_logb_iff_rpow_le one_lt_two (by positivity), Real.rpow_natCast]
      exact hlo
    exact h1
  have hlog_hi : 2 * Real.logb 2 ((s : ℝ) / 10 + 1) < (n : ℝ) + 1 := by
    rw [← hsq]
    have h1 : Real.logb 2 (((s : ℝ) / 10 + 1) ^ 2) < ((n + 1 : ℕ) : ℝ) := by
      rw [Real.logb_lt_iff_lt_rpow one_lt_two (by positivity), Real.rpow_natCast]
      exact hhi
    push_cast at h1
    linarith
  rw [calc_level_eq_floor (Int.ofNat_nonneg s)]
  rw [Int.floor_eq_iff]
  constructor
  · push_cast
    linarith
  · push_cast
    linarith

/-- Boundary fixtures of the documented level table. -/
theorem calc_level_fixtures :
    calc_level 0 = 1 ∧ calc_level 9 = 2 ∧ calc_level 10 = 3 ∧ calc_level 29 = 4 := by
  refine ⟨?_, ?_, ?_, ?_⟩
  · have h := calc_level_nat 0
    norm_num at h
    exact h
  · have h := calc_level_nat 9
    norm_num at h
    rw [h, Nat.log_eq_of_pow_le_of_lt_pow (m := 1) (by norm_num) (by norm_num)]
    norm_num
  · have h := calc_level_nat 10
    norm_num at h
    rw [h, Nat.log_eq_of_pow_le_of_lt_pow (m := 2) (by norm_num) (by norm_num)]
    norm_num
  · have h := calc_level_nat 29
    norm_num at h
    rw [h, Nat.log_eq_of_pow_le_of_lt_pow (m := 3) (by norm_num) (by norm_num)]
    norm_num

/-- The level is at least 1 for every non-negative score. -/
theorem one_le_calc_level {s : ℤ} (hs : 0 ≤ s) : 1 ≤ calc_level s := by
  rw [calc_level_eq_floor hs]
  rw [Int.le_floor]
  have hx : (1 : ℝ) ≤ (s : ℝ) / 10 + 1 := by
    have h0 : (0 : ℝ) ≤ (s : ℝ) := by exact_mod_cast hs
    linarith
  have hlog : 0 ≤ Real.logb 2 ((s : ℝ) / 10 + 1) := Real.logb_nonneg one_lt_two hx
  push_cast
  linarith

/-- The level is monotone in the score on scores ≥ 0. -/
theorem calc_level_mono {s t : ℤ} (hs : 0 ≤ s) (hst : s ≤ t) :
    calc_level s ≤ calc_level t := by
  have ht : (0 : ℤ) ≤ t := le_trans hs hst
  rw [calc_level_eq_floor hs, calc_level_eq_floor ht]
  apply Int.floor_le_floor
  have hs' : (0 : ℝ) ≤ (s : ℝ) := by exact_mod_cast hs
  have hst' : (s : ℝ) ≤ (t : ℝ) := by exact_mod_cast hst
  have hxs : (0 : ℝ) < (s : ℝ) / 10 + 1 := by linarith
  have hlog := Real.logb_le_logb_of_le one_lt_two hxs (by linarith : (s : ℝ) / 10 + 1 ≤ (t : ℝ) / 10 + 1)
  linarith

/-! ## Concrete rows used by witnesses -/

/-- A concrete user card for witnesses. -/
def wcard : UserCard :=
  { user_id := 1, card_id := 2, trans := "t", last_study := 0, score := 3, word := "cat" }

/-- A concrete user row for witnesses. -/
def wuser : User := { id := 1, score := 9, level := 2 }

/-! ## C3 — the level formula -/

/-- C3: for every score `s ≥ 0`, `levelForScore(s)` is the floor (not the
rounding) of `2 * log2(s/10 + 1) + 1`; it is at least 1, monotone
non-decreasing, and meets the boundary fixtures
`levelForScore 0 = 1, 9 = 2, 10 = 3, 29 = 4`. -/
theorem levelForScore_spec (s t : ℤ) (hs : 0 ≤ s) (hst : s ≤ t) :
    calc_level s = ⌊2 * Real.logb 2 ((s : ℝ) / 10 + 1) + 1⌋
    ∧ 1 ≤ calc_level s
    ∧ calc_level s ≤ calc_level t
    ∧ calc_level 0 = 1 ∧ calc_level 9 = 2 ∧ calc_level 10 = 3 ∧ calc_level 29 = 4 :=
  ⟨calc_level_eq_floor hs, one_le_calc_level hs, calc_level_mono hs hst,
    calc_level_fixtures⟩

/-- C3 witness at `s = 0`, `t = 29`. -/
theorem levelForScore_spec_witness :
    calc_level 0 = ⌊2 * Real.logb 2 (((0 : ℤ) : ℝ) / 10 + 1) + 1⌋
    ∧ 1 ≤ calc_level 0
    ∧ calc_level 0 ≤ calc_level 29
    ∧ calc_level 0 = 1 ∧ calc_level 9 = 2 ∧ calc_level 10 = 3 ∧ calc_level 29 = 4 :=
  levelForScore_spec 0 29 (by norm_num) (by norm_num)

/-! ## C4 — the card-score update -/

/-- C4 counterexample: at `previousCardScore = -2` with a successful
outcome the code yields `max(0, -2 + 1) = 0`; "treated as 0 before the
delta" would yield `max(-2, 0) + 1 = 1`, and "increments by exactly 1"
would yield `-1`.  The claim's description is contradictory at this
input. -/
theorem card_score_neg_counterexample :
    card_score_update (-2) true = 0
    ∧ max (-2 : ℤ) 0 + 1 = 1
    ∧ card_score_update (-2) true ≠ max (-2 : ℤ) 0 + 1
    ∧ card_score_update (-2) true ≠ (-2 : ℤ) + 1 := by decide

/-- C4 (amended): the update equals `max(0, prev + (success ? +1 : -1))`
and is never negative, with the clamp to 0 applied after the delta; a
failing outcome decrements by exactly 1 floored at 0 and a successful
outcome increments by exactly 1 whenever the previous score is
non-negative; this is exactly the card score `user_card_study`
persists. -/
theorem card_score_update_spec (p q : ℤ) (b : Bool) (uc : UserCard) (u : User)
    (now : ℚ) (hq : 0 ≤ q) :
    card_score_update p b = max 0 (p + if b then 1 else -1)
    ∧ 0 ≤ card_score_update p b
    ∧ card_score_update q true = q + 1
    ∧ card_score_update q false = max 0 (q - 1)
    ∧ (user_card_study uc u b now).cardScore = card_score_update uc.score b := by
  refine ⟨rfl, le_max_left _ _, ?_, ?_, rfl⟩
  · show max 0 (q + 1) = q + 1
    omega
  · show max 0 (q + -1) = max 0 (q - 1)
    omega

/-- C4 witness at `p = -7`, `q = 5`. -/
theorem card_score_update_spec_witness :
    card_score_update (-7) false = max 0 ((-7) + if false then 1 else -1)
    ∧ 0 ≤ card_score_update (-7) false
    ∧ card_score_update 5 true = 5 + 1
    ∧ card_score_update 5 false = max 0 (5 - 1)
    ∧ (user_card_study wcard wuser false 0).cardScore = card_score_update wcard.score false :=
  card_score_update_spec (-7) 5 false wcard wuser 0 (by norm_num)

/-! ## C7 — the aggregate user-score update -/

/-- The user score `user_card_study` persists. -/
theorem userScore_eq (uc : UserCard) (u : User) (b : Bool) (now : ℚ) :
    (user_card_study uc u b now).userScore = u.score + if b then 1 else 0 := rfl

/-- Folding any sequence of study events never decreases the user score. -/
theorem score_mono_foldl (u : User) (evs : List (UserCard × Bool × ℚ)) :
    u.score ≤ (evs.foldl (fun w e => user_after_study e.1 w e.2.1 e.2.2) u).score := by
  induction evs generalizing u with
  | nil => exact le_refl _
  | cons e rest ih =>
    refine le_trans ?_ (ih (user_after_study e.1 u e.2.1 e.2.2))
    have h : (user_after_study e.1 u e.2.1 e.2.2).score
        = u.score + if e.2.1 then 1 else 0 := rfl
    rw [h]
    cases e.2.1 <;> simp

/-- C7: the persisted user score is the previous score plus 1 on success
and unchanged on failure; it stays non-negative and never decreases across
any sequence of study outcomes. -/
theorem user_score_update_spec (uc : UserCard) (u : User) (b : Bool) (now : ℚ)
    (evs : List (UserCard × Bool × ℚ)) (h : 0 ≤ u.score) :
    (user_card_study uc u b now).userScore = u.score + (if b then 1 else 0)
    ∧ u.score ≤ (user_card_study uc u b now).userScore
    ∧ 0 ≤ (user_card_study uc u b now).userScore
    ∧ u.score ≤ (evs.foldl (fun w e => user_after_study e.1 w e.2.1 e.2.2) u).score := by
  refine ⟨rfl, ?_, ?_, score_mono_foldl u evs⟩
  · rw [userScore_eq]
    cases b <;> simp
  · rw [userScore_eq]
    cases b <;> simp <;> omega

/-- C7 witness: user at score 9, one failure then fold over one success. -/
theorem user_score_update_spec_witness :
    (user_card_study wcard wuser false 0).userScore = wuser.score + (if false then 1 else 0)
    ∧ wuser.score ≤ (user_card_study wcard wuser false 0).userScore
    ∧ 0 ≤ (user_card_study wcard wuser false 0).userScore
    ∧ wuser.score ≤
      ([(wcard, true, (0 : ℚ))].foldl (fun w e => user_after_study e.1 w e.2.1 e.2.2) wuser).score :=
  user_score_update_spec wcard wuser false 0 [(wcard, true, 0)] (by norm_num [wuser])

/-! ## C1 — level persistence and the level-up signal -/

/-- C1 failing input: the source computes `level = user.calc_level()` on
the user object loaded before the update, so for a user at score 9
(stored level 2) a correct answer persists score 10 but level
`calc_level 9 = 2` — not `calc_level 10 = 3` — and returns no level-up
signal; the signal `3` only fires on the next correct answer (10 → 11),
one answer later than the claim's scenario. -/
theorem level_lag_at_nine :
    (user_card_study wcard ⟨1, 9, 2⟩ true 0).userScore = 10
    ∧ (user_card_study wcard ⟨1, 9, 2⟩ true 0).userLevel = 2
    ∧ (user_card_study wcard ⟨1, 9, 2⟩ true 0).userLevel ≠ calc_level 10
    ∧ (user_card_study wcard ⟨1, 9, 2⟩ true 0).levelUp = none
    ∧ (user_card_study wcard ⟨1, 10, 2⟩ true 0).userScore = 11
    ∧ (user_card_study wcard ⟨1, 10, 2⟩ true 0).levelUp = some 3 := by
  have h9 : calc_level 9 = 2 := calc_level_fixtures.2.1
  have h10 : calc_level 10 = 3 := calc_level_fixtures.2.2.1
  refine ⟨rfl, ?_, ?_, ?_, rfl, ?_⟩
  · simpa [user_card_study] using h9
  · simp [user_card_study, h9, h10]
  · simp [user_card_study, h9]
  · simp [user_card_study, h10]

/-! ## C6 — the stored level of a fresh user -/

/-- C6 failing input: `user_ensure` on an unknown id inserts the schema
defaults `score = 0, level = 0` (src/schema.py:38), so a lazily created
user is stored with level 0, not 1 — the repository's own test
(src/study_manager_test.py:49) asserts `User(id=uid1, score=0, level=1)`
instead. -/
theorem fresh_user_level_zero :
    user_ensure [] 1 = [{ id := 1, score := 0, level := 0 }]
    ∧ (user_default 1).level = 0
    ∧ ¬ (1 : ℤ) ≤ (user_default 1).level := by decide

/-! ## C8 — the can-study threshold -/

/-- C8: `user_can_study` is true iff the user owns more than 4 user cards:
false for 4 or fewer, true for 5 or more. -/
theorem user_can_study_spec (cards : List UserCard) :
    (user_can_study cards = true ↔ 5 ≤ cards.length)
    ∧ (user_can_study cards = false ↔ cards.length ≤ 4) := by
  constructor
  · simp [user_can_study]
    omega
  · simp [user_can_study]

/-! ## C9 — the delete flow -/

/-- C9: in the delete flow a missing word only reports the miss: the state
stays `delete_word` and the cards are untouched; the literal `ALL` and an
existing word complete the deletion and return the state to `idle`. -/
theorem delete_flow_spec (cards : List UserCard) (word : String) :
    (word ≠ "ALL" → user_card_exists cards word = false →
      handle_delete_word cards word
        = (BotState.delete_word, cards, DeleteReply.missing word))
    ∧ handle_delete_word cards "ALL" = (BotState.idle, [], DeleteReply.deletedAll)
    ∧ (word ≠ "ALL" → user_card_exists cards word = true →
      (handle_delete_word cards word).1 = BotState.idle
      ∧ (handle_delete_word cards word).2.1 = user_card_delete cards word
      ∧ (handle_delete_word cards word).2.2 = DeleteReply.deleted word) := by
  refine ⟨?_, ?_, ?_⟩
  · intro h1 h2
    simp [handle_delete_word, h1, h2]
  · simp [handle_delete_word]
  · intro h1 h2
    simp [handle_delete_word, h1, h2]

/-- C9 witness: a miss ("dog"), the token ALL, and a case-insensitive hit
("CAT" for the stored word "cat"). -/
theorem delete_flow_spec_witness :
    handle_delete_word [wcard] "dog" = (BotState.delete_word, [wcard], DeleteReply.missing "dog")
    ∧ handle_delete_word [wcard] "ALL" = (BotState.idle, [], DeleteReply.deletedAll)
    ∧ (handle_delete_word [wcard] "CAT").1 = BotState.idle :=
  ⟨(delete_flow_spec [wcard] "dog").1 (by decide) (by decide),
    (delete_flow_spec [wcard] "ALL").2.1,
    ((delete_flow_spec [wcard] "CAT").2.2 (by decide) (by decide)).1⟩

/-! ## Sampling: structure of the without-replacement draw -/

/-- As long as at least `k` distinct indices are available, the draw yields
exactly `k` indices, all distinct, all from the available pool — for every
randomness oracle. -/
theorem sampleIdx_spec (pick : ℕ → ℕ) :
    ∀ (k : ℕ) (avail : List ℕ) (step : ℕ), avail.Nodup → k ≤ avail.length →
      (sampleIdx pick k avail step).length = k
      ∧ (sampleIdx pick k avail step).Nodup
      ∧ sampleIdx pick k avail step ⊆ avail
  | 0, avail, step, _, _ => by simp [sampleIdx]
  | k + 1, avail, step, hnd, hk => by
    have hpos : 0 < avail.length := lt_of_lt_of_le (Nat.succ_pos k) hk
    have hmem : avail.getD (pick step % avail.length) 0 ∈ avail := by
      rw [List.getD_eq_getElem avail 0 (Nat.mod_lt _ hpos)]
      exact List.getElem_mem _
    set i := avail.getD (pick step % avail.length) 0 with hi
    have hlen : (avail.erase i).length = avail.length - 1 :=
      List.length_erase_of_mem hmem
    have hk' : k ≤ (avail.erase i).length := by omega
    have hnd' : (avail.erase i).Nodup := List.Nodup.erase i hnd
    obtain ⟨ih1, ih2, ih3⟩ := sampleIdx_spec pick k (avail.erase i) (step + 1) hnd' hk'
    have hnotin : i ∉ sampleIdx pick k (avail.erase i) (step + 1) := by
      intro hin
      have h1 : i ∈ avail.erase i := ih3 hin
      have h2 := (List.Nodup.mem_erase_iff hnd).1 h1
      exact h2.1 rfl
    refine ⟨?_, ?_, ?_⟩
    · show (i :: sampleIdx pick k (avail.erase i) (step + 1)).length = k + 1
      simp [ih1]
    · show (i :: sampleIdx pick k (avail.erase i) (step + 1)).Nodup
      exact List.nodup_cons.mpr ⟨hnotin, ih2⟩
    · show i :: sampleIdx pick k (avail.erase i) (step + 1) ⊆ avail
      exact List.cons_subset.mpr ⟨hmem, ih3.trans (List.erase_subset _ _)⟩

/-- Whenever `np_choice` succeeds it returns exactly `size` elements of
`a`, drawn at pairwise-distinct indices; distinct positions carry distinct
cards as soon as the card ids of `a` are pairwise distinct. -/
theorem np_choice_ok_spec (pick : ℕ → ℕ) (a : List UserCard) (size : ℕ)
    (p : List ℚ) (l : List UserCard)
    (hnd : (a.map UserCard.card_id).Nodup)
    (hok : np_choice pick a size p = Except.ok l) :
    l.length = size ∧ (l.map UserCard.card_id).Nodup ∧ l ⊆ a := by
  unfold np_choice at hok
  split at hok
  · exact absurd hok (by simp)
  split at hok
  · exact absurd hok (by simp)
  split at hok
  · exact absurd hok (by simp)
  split at hok
  · exact absurd hok (by simp)
  split at hok
  · exact absurd hok (by simp)
  rename_i h5
  push_neg at h5
  have hl := Except.ok.inj hok
  set avail := (List.range a.length).filter (fun i => decide (0 < p.getD i 0)) with ha
  have hand : avail.Nodup := List.Nodup.filter _ (List.nodup_range a.length)
  have hrange : ∀ j ∈ avail, j < a.length := by
    intro j hj
    have := List.mem_filter.1 hj
    exact List.mem_range.1 this.1
  obtain ⟨hs1, hs2, hs3⟩ := sampleIdx_spec pick size avail 0 hand h5
  set idxs := sampleIdx pick size avail 0 with hidxs
  have hidxlt : ∀ j ∈ idxs, j < a.length := fun j hj => hrange j (hs3 hj)
  refine ⟨?_, ?_, ?_⟩
  · rw [← hl]
    simpa using hs1
  · rw [← hl]
    rw [List.map_map]
    apply List.Nodup.map_on ?_ hs2
    intro x hx y hy hxy
    have hxl : x < a.length := hidxlt x hx
    have hyl : y < a.length := hidxlt y hy
    have hxm : x < (a.map UserCard.card_id).length := by simpa using hxl
    have hym : y < (a.map UserCard.card_id).length := by simpa using hyl
    have hx1 : (a.getD x default).card_id = (a.map UserCard.card_id).get ⟨x, hxm⟩ := by
      rw [List.getD_eq_getElem a default hxl]
      simp
    have hy1 : (a.getD y default).card_id = (a.map UserCard.card_id).get ⟨y, hym⟩ := by
      rw [List.getD_eq_getElem a default hyl]
      simp
    have hget : (a.map UserCard.card_id).get ⟨x, hxm⟩ = (a.map UserCard.card_id).get ⟨y, hym⟩ := by
      rw [← hx1, ← hy1]
      simpa using hxy
    have hfin := (List.Nodup.get_inj_iff hnd).1 hget
    simpa using hfin
  · rw [← hl]
    intro c hc
    obtain ⟨j, hj, rfl⟩ := List.mem_map.1 hc
    rw [List.getD_eq_getElem a default (hidxlt j hj)]
    exact List.getElem_mem _

/-! ## C2, C5, C10 — the round chooser -/

/-- A user card that has never left the zero state: `score = 0` and
`last_study` equal to the current clock, so its weight is 0. -/
def zcard (i : ℤ) : UserCard :=
  { user_id := 1, card_id := i, trans := "t", last_study := 0, score := 0, word := "w" }

/-- C2 failing input: five candidate cards whose weights are all zero
(`last_study` equals `now`).  `weight_sum = sum(weights) or 1` avoids the
division by zero, but the probabilities are then all 0, and
`numpy.random.choice` raises `ValueError: probabilities do not sum to 1` —
there is no uniform fallback and the call does raise. -/
theorem choices_all_zero_weights_raise :
    ([zcard 1, zcard 2, zcard 3, zcard 4, zcard 5].map
        (fun uc => ((0 : ℚ) - uc.last_study) / 86400 / ((uc.score : ℚ) + 1)))
      = [0, 0, 0, 0, 0]
    ∧ user_card_choices (fun _ => 0) 0 [zcard 1, zcard 2, zcard 3, zcard 4, zcard 5] 4
      = Except.error ChoiceError.probsSumNotOne := by
  constructor
  · norm_num [zcard]
  · norm_num [user_card_choices, np_choice, zcard, List.range_succ]

/-- C5 counterexample: a user owning exactly 4 user cards, all of weight
zero — `user_card_choices` raises instead of returning 4 distinct cards,
so "for every user owning at least 4 user cards the call returns exactly 4
distinct user cards" fails. -/
theorem choices_four_cards_counterexample :
    [zcard 1, zcard 2, zcard 3, zcard 4].length = 4
    ∧ user_card_choices (fun _ => 0) 0 [zcard 1, zcard 2, zcard 3, zcard 4] 4
      = Except.error ChoiceError.probsSumNotOne := by
  constructor
  · rfl
  · norm_num [user_card_choices, np_choice, zcard, List.range_succ]

/-- C5 (amended): whenever `user_card_choices` returns a round at all it
consists of exactly 4 user cards of the user's list with pairwise-distinct
card ids (the rows' card ids are distinct by the `(user_id, card_id)`
primary key); in the degenerate cases (for example all weights zero) it
raises instead of returning. -/
theorem user_card_choices_ok_spec (pick : ℕ → ℕ) (now : ℚ)
    (cards l : List UserCard)
    (hnd : (cards.map UserCard.card_id).Nodup)
    (hok : user_card_choices pick now cards 4 = Except.ok l) :
    l.length = 4 ∧ (l.map UserCard.card_id).Nodup ∧ l ⊆ cards :=
  np_choice_ok_spec pick cards 4 _ l hnd hok

/-- C5 witness: five cards of weight 1 each; the draw with the constant-0
oracle returns the first four, distinct. -/
theorem user_card_choices_ok_spec_witness :
    [zcard 1, zcard 2, zcard 3, zcard 4].length = 4
    ∧ ([zcard 1, zcard 2, zcard 3, zcard 4].map UserCard.card_id).Nodup
    ∧ [zcard 1, zcard 2, zcard 3, zcard 4]
      ⊆ [zcard 1, zcard 2, zcard 3, zcard 4, zcard 5] :=
  user_card_choices_ok_spec (fun _ => 0) 86400
    [zcard 1, zcard 2, zcard 3, zcard 4, zcard 5]
    [zcard 1, zcard 2, zcard 3, zcard 4]
    (by decide)
    (by norm_num [user_card_choices, np_choice, zcard, List.range_succ, sampleIdx])

/-- C10: a user with fewer than 4 user cards always makes
`user_card_choices` (with its default `k = 4`) raise — the sample size
exceeds the population and `replace=False` forbids that (or an earlier
probability check fails) — and such a user is exactly one that
`user_can_study` rejects, which is how `handle_study`
(src/cards_bot.py:329-341) avoids the exception. -/
theorem choices_fewer_than_four_raise (pick : ℕ → ℕ) (now : ℚ)
    (cards : List UserCard) (h : cards.length < 4) :
    (∃ e, user_card_choices pick now cards 4 = Except.error e)
    ∧ user_can_study cards = false := by
  constructor
  · simp only [user_card_choices, np_choice]
    repeat' split
    all_goals exact ⟨_, rfl⟩
  · simp [user_can_study]
    omega

/-- C10 witness: three cards of weight 1. -/
theorem choices_fewer_than_four_raise_witness :
    (∃ e, user_card_choices (fun _ => 0) 86400 [zcard 1, zcard 2, zcard 3] 4
      = Except.error e)
    ∧ user_can_study [zcard 1, zcard 2, zcard 3] = false :=
  choices_fewer_than_four_raise (fun _ => 0) 86400 [zcard 1, zcard 2, zcard 3]
    (by decide)

end Netology
